import Mathlib

/-!
Verification development for the `langauge-widget-desktop` vocabulary scheduler.

The Python core (`src/core/history_tracker.py`, `src/core/word_manager.py`,
`src/core/gamification_tracker.py`, `src/utils/helpers.py`) is shallowly
embedded below:

* timestamps are rationals (seconds); ISO-8601 timestamp strings produced by
  `datetime.now().isoformat()` compare lexicographically exactly as the
  instants they denote compare chronologically, so a numeric timestamp is a
  faithful model of both arithmetic on and ordering of those strings;
* Python `dict`s (which preserve insertion order) are association lists
  without duplicate keys, updated in place;
* Python floats are modelled as rationals (the weight formula only uses
  +, *, /, ^2 on values far from any float pathology);
* the clock (`datetime.now()`) and the random draws of `random.choices` /
  `random.choice` are passed in as explicit parameters;
* code that can raise returns `Except`.
-/

namespace LangWidget

/-! ## Exposure history store — `src/core/history_tracker.py`

One record per word id, exactly the dictionary created at
`history_tracker.py:60-64` / `119-123` / `131-135`.  The `marked_known` /
`marked_difficult` keys are absent until a mark operation writes them and
every read goes through `.get(..., False)`, so a `Bool` field that is
`false` at creation is an exact model. -/

structure ExposureRecord where
  times_shown : Nat
  last_shown : Option ℚ
  first_shown : ℚ
  marked_known : Bool
  marked_difficult : Bool
deriving DecidableEq

/-- Embeds `HistoryTracker.history`: dict keyed by `str(word_id)`; the string keys
are in bijection with the integer ids, so we key by the integer. -/
abbrev Hist := List (Int × ExposureRecord)

/-- First-occurrence lookup, i.e. `self.history.get(word_key)`. -/
def histFind : Hist → Int → Option ExposureRecord
  | [], _ => none
  | (k, r) :: t, wid => if k = wid then some r else histFind t wid

/-- In-place update of the (unique) entry for a key, `self.history[word_key][f] = v`. -/
def histUpdate : Hist → Int → (ExposureRecord → ExposureRecord) → Hist
  | [], _, _ => []
  | (k, r) :: t, wid, f => if k = wid then (k, f r) :: t else (k, r) :: histUpdate t wid f

/-- The fresh record literal of `history_tracker.py:60-64` (also 119-123, 131-135). -/
def newRecord (now : ℚ) : ExposureRecord :=
  { times_shown := 0, last_shown := none, first_shown := now
    marked_known := false, marked_difficult := false }

/-- Embeds `HistoryTracker.get_word_history` (line 72). -/
def get_word_history (h : Hist) (word_id : Int) : Option ExposureRecord :=
  histFind h word_id

/-- Embeds `HistoryTracker.get_hours_since_shown` (line 84): `None` when there is no
record or `last_shown` is null, else `(now - last_shown).total_seconds() / 3600`. -/
def get_hours_since_shown (h : Hist) (now : ℚ) (word_id : Int) : Option ℚ :=
  match get_word_history h word_id with
  | none => none
  | some r =>
    match r.last_shown with
    | none => none
    | some t => some ((now - t) / 3600)

/-- Embeds `HistoryTracker.get_times_shown` (line 102): 0 when no record exists. -/
def get_times_shown (h : Hist) (word_id : Int) : Nat :=
  match get_word_history h word_id with
  | none => 0
  | some r => r.times_shown

/-- Embeds `HistoryTracker.is_marked_known` (line 141). -/
def is_marked_known (h : Hist) (word_id : Int) : Bool :=
  match get_word_history h word_id with
  | none => false
  | some r => r.marked_known

/-- Embeds `HistoryTracker.is_marked_difficult` (line 146). -/
def is_marked_difficult (h : Hist) (word_id : Int) : Bool :=
  match get_word_history h word_id with
  | none => false
  | some r => r.marked_difficult

/-- The creation block shared verbatim by `record_display`, `mark_known` and
`mark_difficult` (`if word_key not in self.history: self.history[word_key] =
{...}`): append a fresh record when the key is absent. -/
def ensureRecord (now : ℚ) (word_id : Int) (h : Hist) : Hist :=
  match histFind h word_id with
  | none => h ++ [(word_id, newRecord now)]
  | some _ => h

/-- Embeds `HistoryTracker.record_display` (line 50): create the record if absent,
then increment `times_shown` and set `last_shown := now`.  (The debounced
`save_history(force=False)` call does not touch `self.history`; persistence
is modelled separately, in the file-system section.) -/
def record_display (now : ℚ) (word_id : Int) (h : Hist) : Hist :=
  histUpdate (ensureRecord now word_id h) word_id fun r =>
    { r with times_shown := r.times_shown + 1, last_shown := some now }

/-- Embeds `HistoryTracker.mark_known` (line 115): create the record if absent, set
`marked_known := True` and `marked_difficult := False`. -/
def mark_known (now : ℚ) (word_id : Int) (h : Hist) : Hist :=
  histUpdate (ensureRecord now word_id h) word_id fun r =>
    { r with marked_known := true, marked_difficult := false }

/-- Embeds `HistoryTracker.mark_difficult` (line 128). -/
def mark_difficult (now : ℚ) (word_id : Int) (h : Hist) : Hist :=
  histUpdate (ensureRecord now word_id h) word_id fun r =>
    { r with marked_difficult := true, marked_known := false }

/-- Stable insertion for a descending sort: the element being inserted comes
from earlier in the original list than everything already inserted, so it is
placed before the first entry whose key does not exceed its own.  This is the
behaviour of Python `sorted(..., reverse=True)` (a stable descending sort). -/
def insertByDesc (key : Int × ExposureRecord → ℚ) (x : Int × ExposureRecord) :
    List (Int × ExposureRecord) → List (Int × ExposureRecord)
  | [] => [x]
  | y :: ys => if key y ≤ key x then x :: y :: ys else y :: insertByDesc key x ys

/-- Stable descending sort by a rational key (`sorted(..., reverse=True)`). -/
def sortByDesc (key : Int × ExposureRecord → ℚ) : List (Int × ExposureRecord) →
    List (Int × ExposureRecord)
  | [] => []
  | x :: xs => insertByDesc key x (sortByDesc key xs)

/-- Embeds `HistoryTracker.cleanup_old_entries` (line 151).  The sort key is
`x[1].get('last_shown', '')`; every record created by this class has the
`last_shown` key, so the key value is either the ISO timestamp string or
Python `None`.  When CPython sorts a list of at least two elements, run
detection compares every element with a neighbour, and any comparison
involving `None` (on either side) raises `TypeError`; the raise is modelled
as `Except.error ()`, with `self.history` left unchanged and no flush.
Otherwise all keys are ISO strings, which compare as their instants do,
modelled by the numeric timestamps (`getD 0` is unreachable on that branch).
The subsequent forced flush does not change `self.history`. -/
def cleanup_old_entries (max_entries : Nat) (h : Hist) : Except Unit Hist :=
  if h.length ≤ max_entries then Except.ok h
  else if 2 ≤ h.length ∧ h.any (fun p => p.2.last_shown.isNone) then Except.error ()
  else Except.ok ((sortByDesc (fun p => p.2.last_shown.getD 0) h).take max_entries)

/-! ## Word manager — `src/core/word_manager.py`

`calculate_word_weight` and `select_next_word` read a word's `id` and
`category` only, so the embedded `Word` carries exactly those (`category`
is optional: `w.get('category')`). -/

structure Word where
  id : Int
  category : Option String
deriving DecidableEq

/-- Embeds `WordManager.calculate_word_weight` (line 67): return 0 for the word
currently on screen, else `(hours_since + 1)^2 / (times_shown + 1)` times the
multiplier 2 (never shown), 1.5 (marked difficult), 0.3 (marked known) or 1. -/
def calculate_word_weight (h : Hist) (now : ℚ) (word : Word) (current_id : Option Int) : ℚ :=
  if (match current_id with | some cid => decide (word.id = cid) | none => false) then 0
  else
    let hours_since : ℚ := (get_hours_since_shown h now word.id).getD 1000
    let times_shown : Nat := get_times_shown h word.id
    let base_weight : ℚ := ((hours_since + 1) ^ 2) / ((times_shown : ℚ) + 1)
    let multiplier : ℚ :=
      if times_shown = 0 then 2
      else if is_marked_difficult h word.id then 3 / 2
      else if is_marked_known h word.id then 3 / 10
      else 1
    base_weight * multiplier

/-- The candidate pool of `WordManager.select_next_word` (lines 136-143):
filter to the enabled categories when that list is supplied, non-empty and
does not contain `'all'`; fall back to the whole catalog when the filtered
pool is empty.  A word without a `category` key never matches a filter. -/
def candidate_pool (words : List Word) (enabled_categories : Option (List String)) :
    List Word :=
  match enabled_categories with
  | none => words
  | some cats =>
    if cats ≠ [] ∧ "all" ∉ cats then
      let filtered := words.filter fun w =>
        match w.category with
        | some c => decide (c ∈ cats)
        | none => false
      if filtered.isEmpty then words else filtered
    else words

/-- The loop of `select_next_word` lines 145-153: the pool members with
positive weight (kept together with their weights, here recomputed from the
word). -/
def positive_candidates (words : List Word) (h : Hist) (now : ℚ)
    (current_id : Option Int) (enabled_categories : Option (List String)) : List Word :=
  (candidate_pool words enabled_categories).filter fun w =>
    decide (0 < calculate_word_weight h now w current_id)

/-- Embeds `random.choices(candidates, weights=weights, k=1)[0]`: one uniform draw
`d` in `[0, total_weight)` picks the first candidate whose cumulative weight
exceeds `d`.  The draw is an explicit parameter. -/
def weighted_choice (f : Word → ℚ) : List Word → ℚ → Option Word
  | [], _ => none
  | w :: ws, d => if d < f w then some w else weighted_choice f ws (d - f w)

/-- Embeds `WordManager.select_next_word` (line 119).  `draw` is the uniform draw of
`random.choices`; `fallback` chooses the index of `random.choice` on the
zero-weight fallback path (line 157), reduced modulo the pool size. -/
def select_next_word (words : List Word) (h : Hist) (now : ℚ)
    (current_id : Option Int) (enabled_categories : Option (List String))
    (draw : ℚ) (fallback : Nat) : Option Word :=
  if words.isEmpty then none
  else
    let pool := candidate_pool words enabled_categories
    let candidates := positive_candidates words h now current_id enabled_categories
    if candidates.isEmpty then pool.get? (fallback % pool.length)
    else weighted_choice (fun w => calculate_word_weight h now w current_id) candidates draw

/-! ## Catalog loading — `src/utils/helpers.py`, `WordManager._load_vocabulary` -/

/-- A raw vocabulary record as it appears in a JSON source: each relevant
field may be absent (`none`) or present with any value, including the empty
string. -/
structure RawWord where
  id : Option Int
  german : Option String
  english : Option String
  category : Option String
deriving DecidableEq

/-- Embeds `validate_word_schema` (`helpers.py:96`): require only that the keys
`id`, `german`, `english` are PRESENT (`field in word`); the values are not
inspected. -/
def validate_word_schema (w : RawWord) : Bool :=
  w.id.isSome && w.german.isSome && w.english.isSome

/-- Modelled from the spec: "validates each record (`id`, `german`,
`english` present and non-empty)" — the acceptance predicate the spec
claims, for comparison with `validate_word_schema` above. -/
def spec_accepts (w : RawWord) : Bool :=
  w.id.isSome &&
    (match w.german with | some s => !(s = "") | none => false) &&
    (match w.english with | some s => !(s = "") | none => false)

/-- Dict assignment `self.word_index[id] = word`: replace in place, else append. -/
def indexSet : List (Int × RawWord) → Int → RawWord → List (Int × RawWord)
  | [], k, v => [(k, v)]
  | (k1, v1) :: t, k, v => if k1 = k then (k, v) :: t else (k1, v1) :: indexSet t k v

/-- Embeds `WordManager._load_vocabulary` (lines 42-47), over one flattened list of
raw records: each record passing `validate_word_schema` is appended to
`self.words` and indexed under its id; each failing record is skipped (only
logged) and the load continues. -/
def load_vocabulary (ws : List RawWord) : List RawWord × List (Int × RawWord) :=
  ws.foldl
    (fun acc w =>
      if validate_word_schema w then
        (acc.1 ++ [w], indexSet acc.2 (w.id.getD 0) w)
      else acc)
    ([], [])

/-! ## Gamification tracker — `src/core/gamification_tracker.py`

`today` and `yesterday` are the two date strings the code obtains from the
clock (`datetime.now().strftime("%Y-%m-%d")` and the same for
`now - timedelta(days=1)`); they are passed as parameters. -/

structure GamData where
  daily_goal : Int
  current_streak : Int
  longest_streak : Int
  total_words_learned : Int
  total_study_days : Int
  achievements : List String
  daily_progress : List (String × Int)
  last_activity_date : Option String
deriving DecidableEq

/-- The default data structure of `_load_data` (lines 32-41). -/
def default_data : GamData :=
  { daily_goal := 20, current_streak := 0, longest_streak := 0
    total_words_learned := 0, total_study_days := 0, achievements := []
    daily_progress := [], last_activity_date := none }

/-- Embeds `self.data['daily_progress'].get(k)` on the date-keyed dict. -/
def dget : List (String × Int) → String → Option Int
  | [], _ => none
  | (k1, v) :: t, k => if k1 = k then some v else dget t k

/-- Embeds `self.data['daily_progress'][k] = v`: replace in place, else append. -/
def dset : List (String × Int) → String → Int → List (String × Int)
  | [], k, v => [(k, v)]
  | (k1, v1) :: t, k, v => if k1 = k then (k, v) :: t else (k1, v1) :: dset t k v

/-- Lines 56-61 of `record_word_viewed`: ensure `daily_progress[today]`
exists (initialised to 0), increment it, and increment
`total_words_learned`.  (`(dget dp1 today).getD 0` reads a key that is
certainly present.) -/
def bump_progress (today : String) (d : GamData) : GamData :=
  let dp1 :=
    if (dget d.daily_progress today).isSome then d.daily_progress
    else dset d.daily_progress today 0
  let dp2 := dset dp1 today ((dget dp1 today).getD 0 + 1)
  { d with daily_progress := dp2, total_words_learned := d.total_words_learned + 1 }

/-- Embeds `GamificationTracker._update_streak` (line 71).  (The leading underscore
of the Python name is dropped.) -/
def update_streak (today yesterday : String) (d : GamData) : GamData :=
  let d1 :=
    match d.last_activity_date with
    | none => { d with current_streak := 1, total_study_days := 1 }
    | some last =>
      if last = today then d
      else if last = yesterday then
        { d with current_streak := d.current_streak + 1
                 total_study_days := d.total_study_days + 1 }
      else
        { d with current_streak := 1, total_study_days := d.total_study_days + 1 }
  let d2 :=
    if d1.longest_streak < d1.current_streak then
      { d1 with longest_streak := d1.current_streak }
    else d1
  { d2 with last_activity_date := some today }

/-- The `new_achievements` list built by `_check_achievements` (lines
102-126), in the order the code appends: streak thresholds, word-count
thresholds, then the date-parameterised daily-goal id. -/
def achv_candidates (today : String) (d : GamData) : List String :=
  (if 7 ≤ d.current_streak ∧ "7_day_streak" ∉ d.achievements
    then ["7_day_streak"] else []) ++
  (if 30 ≤ d.current_streak ∧ "30_day_streak" ∉ d.achievements
    then ["30_day_streak"] else []) ++
  (if 100 ≤ d.current_streak ∧ "100_day_streak" ∉ d.achievements
    then ["100_day_streak"] else []) ++
  (if 100 ≤ d.total_words_learned ∧ "100_words" ∉ d.achievements
    then ["100_words"] else []) ++
  (if 500 ≤ d.total_words_learned ∧ "500_words" ∉ d.achievements
    then ["500_words"] else []) ++
  (if 1000 ≤ d.total_words_learned ∧ "1000_words" ∉ d.achievements
    then ["1000_words"] else []) ++
  (match dget d.daily_progress today with
   | none => []
   | some words_today =>
     if d.daily_goal ≤ words_today ∧ ("daily_goal_" ++ today) ∉ d.achievements
       then ["daily_goal_" ++ today] else [])

/-- The body of the adding loop at lines 129-131: append only when the id is
not yet in the (growing) achievements list. -/
def addIfAbsent (acc : List String) (a : String) : List String :=
  if a ∈ acc then acc else acc ++ [a]

/-- Embeds `GamificationTracker._check_achievements` (line 100): returns the
newly-unlocked ids and the state whose `achievements` list has these ids
appended (each one re-checked against the growing list). -/
def check_achievements (today : String) (d : GamData) : List String × GamData :=
  let new_achievements := achv_candidates today d
  (new_achievements,
    { d with achievements := new_achievements.foldl addIfAbsent d.achievements })

/-- Embeds `GamificationTracker.record_word_viewed` (line 52): bump today's
progress, update the streak, run the achievement check — whose result is
DISCARDED (line 67 is a bare `self._check_achievements()`) — and save.  The
second component is the Python return value of the method, which is `None`
(the method has no return statement). -/
def record_word_viewed (today yesterday : String) (d : GamData) :
    GamData × Option (List String) :=
  let d2 := update_streak today yesterday (bump_progress today d)
  ((check_achievements today d2).2, none)

/-- The ids `_check_achievements` computes as newly unlocked during a
`record_word_viewed` call (the value the call itself throws away). -/
def rwv_new (today yesterday : String) (d : GamData) : List String :=
  (check_achievements today (update_streak today yesterday (bump_progress today d))).1

/-- A sequence of `record_word_viewed` calls, each with the `(today,
yesterday)` strings its clock produced. -/
def run_views (calls : List (String × String)) (d : GamData) : GamData :=
  calls.foldl (fun s c => (record_word_viewed c.1 c.2 s).1) d

/-! ## Persistence — `src/utils/helpers.py:save_json_atomic` and
`GamificationTracker.save_data`

A write call is a sequence of primitive file-system operations; an
interrupted write executes a prefix of that sequence.  The state tracks the
content of the target file and of the companion temporary file
(`filepath + '.tmp'`); `none` means the file does not exist. -/

structure FS where
  target : Option String
  temp : Option String
deriving DecidableEq

inductive WriteOp where
  /-- Models `open(temp_path, 'w')` + `json.dump` + `flush` + `fsync` (helpers.py:76-79). -/
  | writeTemp (content : String)
  /-- Models `os.replace(temp_path, filepath)` (helpers.py:82). -/
  | renameTemp
  /-- the truncation performed by `open(self.data_file, 'w')` (gamification_tracker.py:47). -/
  | truncateTarget
  /-- the completed `json.dump(self.data, f, indent=2)` (gamification_tracker.py:48). -/
  | writeTarget (content : String)
  /-- Models `os.remove(temp_path)` in the error handler (helpers.py:90). -/
  | removeTemp
deriving DecidableEq

def applyOp (fs : FS) : WriteOp → FS
  | .writeTemp c => { fs with temp := some c }
  | .renameTemp =>
    match fs.temp with
    | some c => { target := some c, temp := none }
    | none => fs
  | .truncateTarget => { fs with target := some "" }
  | .writeTarget c => { fs with target := some c }
  | .removeTemp => { fs with temp := none }

/-- The operation sequence of `save_json_atomic` (helpers.py:70-83): write
and sync the temp file, then atomically rename it over the target.  Used for
the exposure history (`HistoryTracker.save_history`). -/
def save_json_atomic_ops (content : String) : List WriteOp :=
  [.writeTemp content, .renameTemp]

/-- The operation sequence of `GamificationTracker.save_data` (lines 43-50):
open the target itself for writing — truncating it — then dump the JSON
directly into it.  No temporary file and no rename. -/
def save_data_ops (content : String) : List WriteOp :=
  [.truncateTarget, .writeTarget content]

/-- Executing a (possibly interrupted) prefix of a write sequence. -/
def runOps (fs : FS) (ops : List WriteOp) : FS :=
  ops.foldl applyOp fs

/-! ## Spec-side definition for claim C1 (refinement comparison)

Transcribed from the spec, section 4.3: `hoursSince = h.hoursSinceShown(w.id)
?? 1000`, `base = (hoursSince + 1)^2 / (h.timesShown(w.id) + 1)`, the
multiplier table, `weight = base * multiplier`, and "The current displayed
word id, if supplied, is forced to weight 0". -/
def spec_weight (h : Hist) (now : ℚ) (w : Word) (current_id : Option Int) : ℚ :=
  let hoursSince : ℚ := (get_hours_since_shown h now w.id).getD 1000
  let base : ℚ := (hoursSince + 1) ^ 2 / ((get_times_shown h w.id : ℚ) + 1)
  let multiplier : ℚ :=
    if get_times_shown h w.id = 0 then 2
    else if is_marked_difficult h w.id then 3 / 2
    else if is_marked_known h w.id then 3 / 10
    else 1
  match current_id with
  | some cid => if w.id = cid then 0 else base * multiplier
  | none => base * multiplier

/-! ## Concrete inputs used by witnesses and counterexamples -/

/-- A one-word catalog whose single word is the one currently on screen. -/
def wSolo : Word := { id := 1, category := none }

/-- Two-word catalog for the selection witness. -/
def wA : Word := { id := 1, category := none }

def wB : Word := { id := 2, category := none }

/-- History with a marked-but-never-shown record (null `last_shown`) next to
a displayed record: the store state that makes `cleanup_old_entries` raise. -/
def h7bug : Hist :=
  [(1, { times_shown := 0, last_shown := none, first_shown := 0
         marked_known := true, marked_difficult := false }),
   (2, { times_shown := 1, last_shown := some 3600, first_shown := 0
         marked_known := false, marked_difficult := false })]

/-- A raw record whose three required fields are present but whose `german`
value is the empty string. -/
def wEmptyGerman : RawWord :=
  { id := some 1, german := some "", english := some "Haus", category := none }

/-- Progress state one word short of the `100_words` threshold. -/
def d99 : GamData :=
  { daily_goal := 20, current_streak := 3, longest_streak := 3
    total_words_learned := 99, total_study_days := 5, achievements := []
    daily_progress := [("2024-01-01", 30)], last_activity_date := some "2024-01-01" }

/-- Progress state whose today-count already EXCEEDS the daily goal while the
day's achievement id is not yet present. -/
def dOver : GamData :=
  { daily_goal := 20, current_streak := 0, longest_streak := 0
    total_words_learned := 0, total_study_days := 0, achievements := []
    daily_progress := [("2024-01-02", 25)], last_activity_date := none }

/-- History with one record, a word other than the one the C10 witness mutates. -/
def hOther : Hist := [(2, newRecord 0)]

/-! # Lemmas about the history store -/

lemma histFind_histUpdate_ne (h : Hist) (wid j : Int)
    (f : ExposureRecord → ExposureRecord) (hne : j ≠ wid) :
    histFind (histUpdate h wid f) j = histFind h j := by
  induction h with
  | nil => rfl
  | cons p t ih =>
    obtain ⟨k, r⟩ := p
    by_cases hk : k = wid
    · subst hk
      simp [histUpdate, histFind, Ne.symm hne]
    · simp [histUpdate, histFind, hk, ih]

lemma histFind_histUpdate_self (h : Hist) (wid : Int)
    (f : ExposureRecord → ExposureRecord) :
    histFind (histUpdate h wid f) wid = (histFind h wid).map f := by
  induction h with
  | nil => rfl
  | cons p t ih =>
    obtain ⟨k, r⟩ := p
    by_cases hk : k = wid
    · subst hk
      simp [histUpdate, histFind]
    · simp [histUpdate, histFind, hk, ih]

lemma histFind_append_ne (h : Hist) (wid j : Int) (r : ExposureRecord)
    (hne : j ≠ wid) :
    histFind (h ++ [(wid, r)]) j = histFind h j := by
  induction h with
  | nil => simp [histFind, Ne.symm hne]
  | cons p t ih =>
    obtain ⟨k, r1⟩ := p
    by_cases hk : k = j
    · simp [histFind, hk]
    · simp [histFind, hk, ih]

lemma histFind_ensure_ne (now : ℚ) (wid j : Int) (h : Hist) (hne : j ≠ wid) :
    histFind (ensureRecord now wid h) j = histFind h j := by
  unfold ensureRecord
  cases hfind : histFind h wid
  · exact histFind_append_ne h wid j _ hne
  · rfl

lemma histFind_append_self (h : Hist) (wid : Int) (r : ExposureRecord)
    (hfind : histFind h wid = none) :
    histFind (h ++ [(wid, r)]) wid = some r := by
  induction h with
  | nil => simp [histFind]
  | cons p t ih =>
    obtain ⟨k, r1⟩ := p
    by_cases hk : k = wid
    · simp [histFind, hk] at hfind
    · simp [histFind, hk] at hfind ⊢
      exact ih hfind

lemma histFind_ensure_self (now : ℚ) (wid : Int) (h : Hist) :
    histFind (ensureRecord now wid h) wid =
      some ((histFind h wid).getD (newRecord now)) := by
  unfold ensureRecord
  cases hfind : histFind h wid with
  | none => simp [histFind_append_self h wid _ hfind]
  | some r => simp [hfind]

/-! # Claim theorems -/

/-- Claim C1: for every word, history state and optional current id, the
weight computed by `calculate_word_weight` is exactly the spec formula:
`base * multiplier` with `base = (hoursSince + 1)^2 / (timesShown + 1)`,
`hoursSince` the store's hours-since-last-shown or the sentinel 1000 when
absent, the multiplier 2 / 1.5 / 0.3 / 1 in the spec's order, and weight 0
when the word is the one currently displayed. -/
theorem weight_matches_spec (h : Hist) (now : ℚ) (w : Word) (c : Option Int) :
    calculate_word_weight h now w c = spec_weight h now w c := by
  cases c with
  | none => rfl
  | some cid =>
    by_cases hid : w.id = cid <;>
      simp [calculate_word_weight, spec_weight, hid]

/-- Claim C7 (code bug): on a store holding a marked-but-never-shown record
(`last_shown` null) next to a displayed record, `cleanup_old_entries`'s sort
key mixes `None` with strings and the sort raises `TypeError` instead of
ordering the null record last and retaining the most recent entries. -/
theorem cleanup_raises_on_null_last_shown :
    cleanup_old_entries 1 h7bug = Except.error () := by rfl

/-- Claim C8 (amended): the exposure-history writes (`save_json_atomic`) are
atomic — interrupting the operation sequence after any prefix leaves the
durable target either untouched or holding the complete new content, and a
completed write installs the new content and leaves no temporary file. -/
theorem atomic_write_prefix_safe (c : String) (fs : FS) (n : Nat) :
    ((runOps fs ((save_json_atomic_ops c).take n)).target = fs.target ∨
      (runOps fs ((save_json_atomic_ops c).take n)).target = some c) ∧
    ((runOps fs (save_json_atomic_ops c)).target = some c ∧
      (runOps fs (save_json_atomic_ops c)).temp = none) := by
  refine ⟨?_, rfl, rfl⟩
  match n with
  | 0 => exact Or.inl rfl
  | 1 => exact Or.inl rfl
  | Nat.succ (Nat.succ m) =>
    refine Or.inr ?_
    simp [save_json_atomic_ops, List.take_succ_cons, runOps, applyOp]

/-- Claim C8 counterexample: the progress-state write (`save_data`) opens
the target directly; interrupting it right after the truncation leaves the
target empty, destroying the previously durable content — so not every
scheduler-state write is temp-file-then-rename. -/
theorem save_data_interrupt_loses_content :
    (runOps { target := some "old", temp := none }
        ((save_data_ops "new").take 1)).target = some "" ∧
    ("" : String) ≠ "old" := by
  exact ⟨rfl, by decide⟩

/-- Claim C9 (amended): catalog load accepts a record exactly when its `id`,
`german` and `english` fields are PRESENT (their values — even empty strings
— are not inspected); every record missing one of the fields is skipped
while the load of the remaining records continues. -/
theorem load_accepts_iff_fields_present (ws : List RawWord) :
    (load_vocabulary ws).1 =
      ws.filter fun w => w.id.isSome && w.german.isSome && w.english.isSome := by
  suffices haux : ∀ (l : List RawWord) (accL : List RawWord)
      (accI : List (Int × RawWord)),
      (l.foldl
          (fun acc w =>
            if validate_word_schema w then
              (acc.1 ++ [w], indexSet acc.2 (w.id.getD 0) w)
            else acc)
          (accL, accI)).1 = accL ++ l.filter validate_word_schema by
    simpa [load_vocabulary, validate_word_schema] using haux ws [] []
  intro l
  induction l with
  | nil => intro accL accI; simp
  | cons w t ih =>
    intro accL accI
    cases hv : validate_word_schema w <;>
      simp [List.foldl_cons, hv, ih, List.filter_cons]

/-- Claim C9 counterexample: a record whose `german` value is the empty
string is accepted by `validate_word_schema` and inserted by the load,
although the claim says records with an empty value are skipped. -/
theorem load_accepts_empty_string_fields :
    (load_vocabulary [wEmptyGerman]).1 = [wEmptyGerman] ∧
    wEmptyGerman.german = some "" ∧
    spec_accepts wEmptyGerman = false := by decide

/-- Claim C10 (amended): `record_display` changes only the target id's
`times_shown` and `last_shown` (plus, at record creation, `first_shown`),
leaving the marked flags unchanged; `mark_known` / `mark_difficult` change
only the flags (plus, at record creation, `first_shown`), leaving
`times_shown` and `last_shown` unchanged; and all three operations leave
every other id's record unchanged.  On an already-existing record all three
leave `first_shown` unchanged. -/
theorem history_mutations_frame (now : ℚ) (wid j : Int) (h : Hist)
    (hne : j ≠ wid) :
    (get_word_history (record_display now wid h) j = get_word_history h j ∧
      get_word_history (mark_known now wid h) j = get_word_history h j ∧
      get_word_history (mark_difficult now wid h) j = get_word_history h j) ∧
    (is_marked_known (record_display now wid h) wid = is_marked_known h wid ∧
      is_marked_difficult (record_display now wid h) wid =
        is_marked_difficult h wid) ∧
    (get_times_shown (mark_known now wid h) wid = get_times_shown h wid ∧
      get_times_shown (mark_difficult now wid h) wid = get_times_shown h wid ∧
      (get_word_history (mark_known now wid h) wid).bind ExposureRecord.last_shown =
        (get_word_history h wid).bind ExposureRecord.last_shown ∧
      (get_word_history (mark_difficult now wid h) wid).bind ExposureRecord.last_shown =
        (get_word_history h wid).bind ExposureRecord.last_shown) ∧
    (∀ r0, get_word_history h wid = some r0 →
      (get_word_history (record_display now wid h) wid).map ExposureRecord.first_shown =
        some r0.first_shown ∧
      (get_word_history (mark_known now wid h) wid).map ExposureRecord.first_shown =
        some r0.first_shown ∧
      (get_word_history (mark_difficult now wid h) wid).map ExposureRecord.first_shown =
        some r0.first_shown) := by
  have hens_ne := histFind_ensure_ne now wid j h hne
  have hens_self := histFind_ensure_self now wid h
  refine ⟨⟨?_, ?_, ?_⟩, ⟨?_, ?_⟩, ⟨?_, ?_, ?_, ?_⟩, ?_⟩
  · simp [record_display, get_word_history, histFind_histUpdate_ne _ _ _ _ hne, hens_ne]
  · simp [mark_known, get_word_history, histFind_histUpdate_ne _ _ _ _ hne, hens_ne]
  · simp [mark_difficult, get_word_history, histFind_histUpdate_ne _ _ _ _ hne, hens_ne]
  · simp [record_display, is_marked_known, get_word_history,
      histFind_histUpdate_self, hens_self]
    cases hfind : histFind h wid <;> simp [hfind, newRecord]
  · simp [record_display, is_marked_difficult, get_word_history,
      histFind_histUpdate_self, hens_self]
    cases hfind : histFind h wid <;> simp [hfind, newRecord]
  · simp [mark_known, get_times_shown, get_word_history,
      histFind_histUpdate_self, hens_self]
    cases hfind : histFind h wid <;> simp [hfind, newRecord]
  · simp [mark_difficult, get_times_shown, get_word_history,
      histFind_histUpdate_self, hens_self]
    cases hfind : histFind h wid <;> simp [hfind, newRecord]
  · simp [mark_known, get_word_history, histFind_histUpdate_self, hens_self]
    cases hfind : histFind h wid <;> simp [hfind, newRecord]
  · simp [mark_difficult, get_word_history, histFind_histUpdate_self, hens_self]
    cases hfind : histFind h wid <;> simp [hfind, newRecord]
  · intro r0 hr0
    have hr0f : histFind h wid = some r0 := hr0
    refine ⟨?_, ?_, ?_⟩ <;>
      simp [record_display, mark_known, mark_difficult, get_word_history,
        histFind_histUpdate_self, hens_self, hr0f]

/-- Claim C10 witness: with word 2 already on record, mutating word 1 leaves
word 2's record untouched. -/
theorem history_mutations_frame_witness :
    get_word_history (record_display 5 1 hOther) 2 = get_word_history hOther 2 :=
  (history_mutations_frame 5 1 2 hOther (by decide)).1.1

/-- Claim C10 counterexample: `mark_known` on an id with no record does more
than set the flags — it creates the record, setting `first_shown` to the
current time (the claim's "changes only the markedKnown and markedDifficult
flags" fails at record creation). -/
theorem mark_known_creates_record :
    (get_word_history (mark_known 5 1 []) 1).map ExposureRecord.first_shown = some 5 ∧
    (get_word_history ([] : Hist) 1).map ExposureRecord.first_shown = none := by
  decide

/-! # Lemmas about the gamification tracker -/

lemma dget_dset_self (l : List (String × Int)) (k : String) (v : Int) :
    dget (dset l k v) k = some v := by
  induction l with
  | nil => simp [dget, dset]
  | cons p t ih =>
    obtain ⟨k1, v1⟩ := p
    by_cases hk : k1 = k
    · simp [dset, dget, hk]
    · simp [dset, dget, hk, ih]

lemma bp_current_streak (t : String) (d : GamData) :
    (bump_progress t d).current_streak = d.current_streak := rfl

lemma bp_longest_streak (t : String) (d : GamData) :
    (bump_progress t d).longest_streak = d.longest_streak := rfl

lemma bp_total_study_days (t : String) (d : GamData) :
    (bump_progress t d).total_study_days = d.total_study_days := rfl

lemma bp_achievements (t : String) (d : GamData) :
    (bump_progress t d).achievements = d.achievements := rfl

lemma bp_last_activity (t : String) (d : GamData) :
    (bump_progress t d).last_activity_date = d.last_activity_date := rfl

lemma bp_total_words (t : String) (d : GamData) :
    (bump_progress t d).total_words_learned = d.total_words_learned + 1 := rfl

lemma bump_progress_dget (t : String) (d : GamData) :
    dget (bump_progress t d).daily_progress t =
      some ((dget d.daily_progress t).getD 0 + 1) := by
  unfold bump_progress
  cases hk : dget d.daily_progress t with
  | none => simp [hk, dget_dset_self]
  | some c => simp [hk, dget_dset_self]

lemma us_achievements (t y : String) (d : GamData) :
    (update_streak t y d).achievements = d.achievements := by
  unfold update_streak
  cases d.last_activity_date <;> dsimp only <;> split_ifs <;> rfl

lemma us_daily_progress (t y : String) (d : GamData) :
    (update_streak t y d).daily_progress = d.daily_progress := by
  unfold update_streak
  cases d.last_activity_date <;> dsimp only <;> split_ifs <;> rfl

lemma us_total_words (t y : String) (d : GamData) :
    (update_streak t y d).total_words_learned = d.total_words_learned := by
  unfold update_streak
  cases d.last_activity_date <;> dsimp only <;> split_ifs <;> rfl

lemma us_daily_goal (t y : String) (d : GamData) :
    (update_streak t y d).daily_goal = d.daily_goal := by
  unfold update_streak
  cases d.last_activity_date <;> dsimp only <;> split_ifs <;> rfl

lemma us_last (t y : String) (d : GamData) :
    (update_streak t y d).last_activity_date = some t := by
  unfold update_streak
  cases d.last_activity_date <;> dsimp only

lemma us_longest (t y : String) (d : GamData) :
    (update_streak t y d).longest_streak =
      max d.longest_streak (update_streak t y d).current_streak := by
  unfold update_streak
  cases d.last_activity_date <;> dsimp only <;> split_ifs <;>
    simp_all <;> omega

lemma update_streak_first (t y : String) (d : GamData)
    (hl : d.last_activity_date = none) :
    (update_streak t y d).current_streak = 1 ∧
    (update_streak t y d).total_study_days = 1 := by
  unfold update_streak
  rw [hl]
  dsimp only
  split_ifs <;> exact ⟨rfl, rfl⟩

lemma update_streak_same_day (t y : String) (d : GamData)
    (hl : d.last_activity_date = some t) :
    (update_streak t y d).current_streak = d.current_streak ∧
    (update_streak t y d).total_study_days = d.total_study_days := by
  unfold update_streak
  rw [hl]
  dsimp only
  rw [if_pos rfl]
  split_ifs <;> exact ⟨rfl, rfl⟩

lemma update_streak_yesterday (t y : String) (d : GamData) (hty : t ≠ y)
    (hl : d.last_activity_date = some y) :
    (update_streak t y d).current_streak = d.current_streak + 1 ∧
    (update_streak t y d).total_study_days = d.total_study_days + 1 := by
  unfold update_streak
  rw [hl]
  dsimp only
  rw [if_neg (Ne.symm hty), if_pos rfl]
  split_ifs <;> exact ⟨rfl, rfl⟩

lemma update_streak_gap (t y z : String) (d : GamData)
    (hl : d.last_activity_date = some z) (hzt : z ≠ t) (hzy : z ≠ y) :
    (update_streak t y d).current_streak = 1 ∧
    (update_streak t y d).total_study_days = d.total_study_days + 1 := by
  unfold update_streak
  rw [hl]
  dsimp only
  rw [if_neg hzt, if_neg hzy]
  split_ifs <;> exact ⟨rfl, rfl⟩

lemma not_mem_of_guard {P : Prop} [Decidable P] {ach : List String} {x a : String}
    (ha : a ∈ (if P ∧ x ∉ ach then [x] else ([] : List String))) : a ∉ ach := by
  split_ifs at ha with hc
  · simp only [List.mem_singleton] at ha
    subst ha
    exact hc.2
  · simp at ha

lemma mem_guard_self {P : Prop} [Decidable P] {ach : List String} {x : String} :
    x ∈ (if P ∧ x ∉ ach then [x] else ([] : List String)) ↔ P ∧ x ∉ ach := by
  split_ifs with hc <;> simp [hc]

lemma not_mem_guard_other {P : Prop} [Decidable P] {ach : List String} {x a : String}
    (hne : a ≠ x) : a ∉ (if P ∧ x ∉ ach then [x] else ([] : List String)) := by
  split_ifs <;> simp [hne]

lemma mem_foldl_addIfAbsent (l acc : List String) (a : String) :
    a ∈ l.foldl addIfAbsent acc ↔ a ∈ acc ∨ a ∈ l := by
  induction l generalizing acc with
  | nil => simp
  | cons x tl ih =>
    rw [List.foldl_cons, ih]
    unfold addIfAbsent
    split_ifs with hx <;> simp [List.mem_cons, List.mem_append] <;> aesop

lemma nodup_foldl_addIfAbsent (l acc : List String) (h : acc.Nodup) :
    (l.foldl addIfAbsent acc).Nodup := by
  induction l generalizing acc with
  | nil => exact h
  | cons x tl ih =>
    rw [List.foldl_cons]
    apply ih
    unfold addIfAbsent
    split_ifs with hx
    · exact h
    · simp [List.nodup_append, h, hx]

lemma candidates_not_already (t : String) (d : GamData) (a : String)
    (ha : a ∈ achv_candidates t d) : a ∉ d.achievements := by
  unfold achv_candidates at ha
  simp only [List.mem_append] at ha
  rcases ha with ((((((h | h) | h) | h) | h) | h) | h)
  · exact not_mem_of_guard h
  · exact not_mem_of_guard h
  · exact not_mem_of_guard h
  · exact not_mem_of_guard h
  · exact not_mem_of_guard h
  · exact not_mem_of_guard h
  · cases hdp : dget d.daily_progress t with
    | none =>
      simp only [hdp] at h
      exact absurd h (List.not_mem_nil a)
    | some wt =>
      simp only [hdp] at h
      exact not_mem_of_guard h

/-- Claim C2: the day-boundary streak state machine of `record_word_viewed`.
With `r` the state after the call (count = 1): a null `lastActivityDate`
gives streak 1 and study-day count 1; `lastActivityDate = today` leaves both
unchanged; `lastActivityDate = yesterday` increments both; any other date
resets the streak to 1 and increments the study-day count; and in every case
`longestStreak` becomes the max of its old value and the new streak,
`lastActivityDate` becomes today, `dailyProgress[today]` grows by the count
and `totalWordsLearned` grows by the count. -/
theorem progress_transition (t y : String) (d : GamData) (hty : t ≠ y) :
    (record_word_viewed t y d).1.total_words_learned = d.total_words_learned + 1 ∧
    (record_word_viewed t y d).1.last_activity_date = some t ∧
    dget (record_word_viewed t y d).1.daily_progress t =
      some ((dget d.daily_progress t).getD 0 + 1) ∧
    (record_word_viewed t y d).1.longest_streak =
      max d.longest_streak (record_word_viewed t y d).1.current_streak ∧
    (d.last_activity_date = none →
      (record_word_viewed t y d).1.current_streak = 1 ∧
      (record_word_viewed t y d).1.total_study_days = 1) ∧
    (d.last_activity_date = some t →
      (record_word_viewed t y d).1.current_streak = d.current_streak ∧
      (record_word_viewed t y d).1.total_study_days = d.total_study_days) ∧
    (d.last_activity_date = some y →
      (record_word_viewed t y d).1.current_streak = d.current_streak + 1 ∧
      (record_word_viewed t y d).1.total_study_days = d.total_study_days + 1) ∧
    (∀ z, d.last_activity_date = some z → z ≠ t → z ≠ y →
      (record_word_viewed t y d).1.current_streak = 1 ∧
      (record_word_viewed t y d).1.total_study_days = d.total_study_days + 1) := by
  refine ⟨?_, ?_, ?_, ?_, ?_, ?_, ?_, ?_⟩
  · show (update_streak t y (bump_progress t d)).total_words_learned = _
    rw [us_total_words, bp_total_words]
  · show (update_streak t y (bump_progress t d)).last_activity_date = some t
    exact us_last t y _
  · show dget (update_streak t y (bump_progress t d)).daily_progress t = _
    rw [us_daily_progress]
    exact bump_progress_dget t d
  · show (update_streak t y (bump_progress t d)).longest_streak =
      max d.longest_streak (update_streak t y (bump_progress t d)).current_streak
    rw [us_longest]
    rfl
  · intro hl
    exact update_streak_first t y (bump_progress t d)
      (by rw [bp_last_activity]; exact hl)
  · intro hl
    exact update_streak_same_day t y (bump_progress t d)
      (by rw [bp_last_activity]; exact hl)
  · intro hl
    exact update_streak_yesterday t y (bump_progress t d) hty
      (by rw [bp_last_activity]; exact hl)
  · intro z hl hzt hzy
    exact update_streak_gap t y z (bump_progress t d)
      (by rw [bp_last_activity]; exact hl) hzt hzy

/-- Claim C2 witness: from `d99` (last activity yesterday, streak 3), a view
on 2024-01-02 with yesterday 2024-01-01 advances the streak and the
study-day count by one. -/
theorem progress_transition_witness :
    (record_word_viewed "2024-01-02" "2024-01-01" d99).1.current_streak =
      d99.current_streak + 1 ∧
    (record_word_viewed "2024-01-02" "2024-01-01" d99).1.total_study_days =
      d99.total_study_days + 1 :=
  (progress_transition "2024-01-02" "2024-01-01" d99
    (by decide)).2.2.2.2.2.2.1 rfl

/-- Claim C3 (amended): `record_word_viewed` persists the newly unlocked
achievement ids — afterwards an id is in the achievements list and was not
there before exactly when this call unlocked it — but the method RETURNS
`None`: the newly-unlocked set computed by `_check_achievements` is
discarded, not returned to the caller. -/
theorem record_view_persists_but_returns_none (t y : String) (d : GamData) :
    (record_word_viewed t y d).2 = none ∧
    ∀ a : String,
      a ∈ rwv_new t y d ↔
        a ∈ (record_word_viewed t y d).1.achievements ∧ a ∉ d.achievements := by
  refine ⟨rfl, fun a => ?_⟩
  have hu : (update_streak t y (bump_progress t d)).achievements =
      d.achievements := by
    rw [us_achievements, bp_achievements]
  have hres : (record_word_viewed t y d).1.achievements =
      (achv_candidates t (update_streak t y (bump_progress t d))).foldl addIfAbsent
        (update_streak t y (bump_progress t d)).achievements := rfl
  have hnew : rwv_new t y d =
      achv_candidates t (update_streak t y (bump_progress t d)) := rfl
  rw [hnew, hres, mem_foldl_addIfAbsent, hu]
  constructor
  · intro ha
    have hnot := candidates_not_already t _ a ha
    rw [hu] at hnot
    exact ⟨Or.inr ha, hnot⟩
  · rintro ⟨h1 | h1, h2⟩
    · exact absurd h1 h2
    · exact h1

/-- Claim C3 counterexample: from `d99` (99 words learned) one more view
unlocks `100_words` — the id enters the persisted achievements list — yet
`record_word_viewed` returns `None`, not the claimed set of newly unlocked
ids. -/
theorem record_view_returns_none_despite_unlock :
    (record_word_viewed "2024-01-02" "2024-01-01" d99).2 = none ∧
    "100_words" ∈ (record_word_viewed "2024-01-02" "2024-01-01" d99).1.achievements ∧
    "100_words" ∉ d99.achievements := by decide

lemma dg_head (t : String) : ("daily_goal_" ++ t).data.head? = some 'd' := by
  obtain ⟨cs⟩ := t
  rfl

lemma dg_ne (t s : String) (hs : s.data.head? ≠ some 'd') :
    ("daily_goal_" ++ t) ≠ s :=
  fun he => hs (he ▸ dg_head t)

/-- Claim C4 (amended): the date-parameterised daily-goal achievement for
date `t` is newly unlocked by `_check_achievements` exactly when the
recorded `dailyProgress[t]` is AT LEAST `dailyGoal` (the code comparison is
`>=`, not `==`) and the id is not already present. -/
theorem daily_goal_unlock_at_or_above (t : String) (d : GamData) :
    ("daily_goal_" ++ t) ∈ (check_achievements t d).1 ↔
      ((∃ wt, dget d.daily_progress t = some wt ∧ d.daily_goal ≤ wt) ∧
        ("daily_goal_" ++ t) ∉ d.achievements) := by
  have h1 := dg_ne t "7_day_streak" (by decide)
  have h2 := dg_ne t "30_day_streak" (by decide)
  have h3 := dg_ne t "100_day_streak" (by decide)
  have h4 := dg_ne t "100_words" (by decide)
  have h5 := dg_ne t "500_words" (by decide)
  have h6 := dg_ne t "1000_words" (by decide)
  have hchk : (check_achievements t d).1 = achv_candidates t d := rfl
  rw [hchk]
  unfold achv_candidates
  constructor
  · intro ha
    simp only [List.mem_append] at ha
    rcases ha with ((((((h | h) | h) | h) | h) | h) | h)
    · exact absurd h (not_mem_guard_other h1)
    · exact absurd h (not_mem_guard_other h2)
    · exact absurd h (not_mem_guard_other h3)
    · exact absurd h (not_mem_guard_other h4)
    · exact absurd h (not_mem_guard_other h5)
    · exact absurd h (not_mem_guard_other h6)
    · cases hdp : dget d.daily_progress t with
      | none =>
        simp only [hdp] at h
        exact absurd h (List.not_mem_nil _)
      | some wt =>
        simp only [hdp] at h
        have hc := mem_guard_self.mp h
        exact ⟨⟨wt, rfl, hc.1⟩, hc.2⟩
  · rintro ⟨⟨wt, hwt, hle⟩, hnot⟩
    refine List.mem_append.mpr (Or.inr ?_)
    simp only [hwt]
    exact mem_guard_self.mpr ⟨hle, hnot⟩

/-- Claim C4 counterexample: in `dOver` today's recorded progress is 25 with
a daily goal of 20 — not equal, only above — yet the daily-goal achievement
for the date is unlocked: the check is `>=`, not the claimed boundary-only
`==`. -/
theorem daily_goal_unlocks_above_boundary :
    "daily_goal_2024-01-02" ∈ (check_achievements "2024-01-02" dOver).1 ∧
    dget dOver.daily_progress "2024-01-02" = some 25 ∧
    dOver.daily_goal = 20 ∧
    dget dOver.daily_progress "2024-01-02" ≠ some dOver.daily_goal := by decide

/-- Claim C5: achievement unlocking is idempotent.  From any progress state
with a duplicate-free achievements list (the initial state's list is empty),
any sequence of `record_word_viewed` calls keeps the list duplicate-free,
and an id already in the list is never again reported as newly unlocked by a
further call. -/
theorem achievements_idempotent (calls : List (String × String)) (d : GamData)
    (hnd : d.achievements.Nodup) :
    (run_views calls d).achievements.Nodup ∧
    ∀ t y a, a ∈ (run_views calls d).achievements →
      a ∉ rwv_new t y (run_views calls d) := by
  have hstep : ∀ t y (s : GamData), s.achievements.Nodup →
      ((record_word_viewed t y s).1).achievements.Nodup := by
    intro t y s hs
    have hrw : (record_word_viewed t y s).1.achievements =
        (achv_candidates t (update_streak t y (bump_progress t s))).foldl addIfAbsent
          (update_streak t y (bump_progress t s)).achievements := rfl
    rw [hrw]
    apply nodup_foldl_addIfAbsent
    rw [us_achievements, bp_achievements]
    exact hs
  have hrun : ∀ (s : GamData), s.achievements.Nodup →
      (run_views calls s).achievements.Nodup := by
    induction calls with
    | nil => intro s hs; exact hs
    | cons c tl ih =>
      intro s hs
      exact ih _ (hstep c.1 c.2 s hs)
  refine ⟨hrun d hnd, ?_⟩
  intro t y a ha hmem
  have hmem2 : a ∈ achv_candidates t
      (update_streak t y (bump_progress t (run_views calls d))) := hmem
  have hnot := candidates_not_already t _ a hmem2
  rw [us_achievements, bp_achievements] at hnot
  exact hnot ha

/-- Claim C5 witness: one concrete call sequence from `d99` (empty, hence
duplicate-free, achievements list). -/
theorem achievements_idempotent_witness :
    (run_views [("2024-01-02", "2024-01-01")] d99).achievements.Nodup :=
  (achievements_idempotent [("2024-01-02", "2024-01-01")] d99 (by decide)).1

/-! # Lemmas about the selection engine -/

lemma candidate_pool_nil (cats : Option (List String)) :
    candidate_pool [] cats = [] := by
  cases cats with
  | none => rfl
  | some cs =>
    unfold candidate_pool
    dsimp only
    split_ifs <;> rfl

lemma weighted_choice_mem (f : Word → ℚ) (l : List Word) (d : ℚ) (w : Word)
    (hw : weighted_choice f l d = some w) : w ∈ l := by
  induction l generalizing d with
  | nil => exact absurd hw (by simp [weighted_choice])
  | cons x t ih =>
    unfold weighted_choice at hw
    split_ifs at hw with hd
    · injection hw with h
      subst h
      exact List.mem_cons_self x t
    · exact List.mem_cons_of_mem x (ih _ hw)

lemma weighted_choice_total (f : Word → ℚ) (l : List Word) (d : ℚ)
    (h0 : 0 ≤ d) (h1 : d < (l.map f).sum) :
    ∃ w, weighted_choice f l d = some w := by
  induction l generalizing d with
  | nil =>
    simp only [List.map_nil, List.sum_nil] at h1
    exact absurd h1 (not_lt.mpr h0)
  | cons x t ih =>
    by_cases hd : d < f x
    · exact ⟨x, by unfold weighted_choice; rw [if_pos hd]⟩
    · have h0x : 0 ≤ d - f x := by
        have := not_lt.mp hd
        linarith
      have h1x : d - f x < (t.map f).sum := by
        simp only [List.map_cons, List.sum_cons] at h1
        linarith
      obtain ⟨w, hw⟩ := ih _ h0x h1x
      exact ⟨w, by unfold weighted_choice; rw [if_neg hd]; exact hw⟩

lemma weight_zero_of_current (h : Hist) (now : ℚ) (w : Word) (cid : Int)
    (hid : w.id = cid) : calculate_word_weight h now w (some cid) = 0 := by
  unfold calculate_word_weight
  rw [hid]
  simp

/-- Claim C6 (amended): whenever some pool word has positive weight — i.e.
the zero-weight fallback of `select_next_word` (line 157) is not taken —
the selected word's id differs from the supplied current id, for every
possible random draw in `[0, totalWeight)`.  (The fallback path CAN return
the current word; see the counterexample.) -/
theorem selection_excludes_current (words : List Word) (h : Hist) (now : ℚ)
    (cid : Int) (cats : Option (List String)) (draw : ℚ) (fb : Nat)
    (hc : positive_candidates words h now (some cid) cats ≠ [])
    (h0 : 0 ≤ draw)
    (h1 : draw < ((positive_candidates words h now (some cid) cats).map
      (fun w => calculate_word_weight h now w (some cid))).sum) :
    ∃ w, select_next_word words h now (some cid) cats draw fb = some w ∧
      w.id ≠ cid := by
  obtain ⟨w, hw⟩ := weighted_choice_total _ _ _ h0 h1
  have hwords : words.isEmpty = false := by
    rcases words with _ | ⟨a, t⟩
    · refine absurd ?_ hc
      unfold positive_candidates
      rw [candidate_pool_nil]
      rfl
    · rfl
  have hce : (positive_candidates words h now (some cid) cats).isEmpty = false := by
    rcases hcp : positive_candidates words h now (some cid) cats with _ | ⟨a, t⟩
    · exact absurd hcp hc
    · rfl
  have hsel : select_next_word words h now (some cid) cats draw fb =
      weighted_choice (fun w => calculate_word_weight h now w (some cid))
        (positive_candidates words h now (some cid) cats) draw := by
    unfold select_next_word
    rw [hwords]
    dsimp only
    rw [hce]
    rfl
  refine ⟨w, hsel ▸ hw, ?_⟩
  have hmem := weighted_choice_mem _ _ _ _ hw
  unfold positive_candidates at hmem
  have hfil := List.of_mem_filter hmem
  have hpos : 0 < calculate_word_weight h now w (some cid) :=
    of_decide_eq_true hfil
  intro hid
  rw [weight_zero_of_current h now w cid hid] at hpos
  exact lt_irrefl 0 hpos

/-- Claim C6 witness: a two-word catalog with empty history, current id 1,
draw 0: the selection succeeds and avoids the current word. -/
theorem selection_excludes_current_witness :
    ∃ w, select_next_word [wA, wB] [] 0 (some 1) none 0 0 = some w ∧
      w.id ≠ 1 := by
  have hwB : calculate_word_weight [] 0 wB (some 1) = 2004002 := by
    norm_num [calculate_word_weight, get_hours_since_shown, get_word_history,
      histFind, get_times_shown, is_marked_known, is_marked_difficult, wB]
  have hA : decide (0 < calculate_word_weight [] 0 wA (some 1)) = false := by
    rw [weight_zero_of_current [] 0 wA 1 rfl]
    rfl
  have hB : decide (0 < calculate_word_weight [] 0 wB (some 1)) = true := by
    rw [hwB]
    rfl
  have hfil : positive_candidates [wA, wB] [] 0 (some 1) none = [wB] := by
    unfold positive_candidates candidate_pool
    rw [List.filter_cons, List.filter_cons, List.filter_nil, hA, hB]
    rfl
  refine selection_excludes_current [wA, wB] [] 0 1 none 0 0 ?_ ?_ ?_
  · rw [hfil]
    exact fun hcontra => List.noConfusion hcontra
  · norm_num
  · rw [hfil]
    simp only [List.map_cons, List.map_nil, List.sum_cons, List.sum_nil, hwB]
    norm_num

/-- Claim C6 counterexample: on a catalog whose only word is the one
currently displayed, every weight is 0, so `select_next_word` takes the
`random.choice` fallback over the pool and returns the current word itself —
the claim's "the returned word's id is different from currentID" fails. -/
theorem selection_reselects_solo_current :
    select_next_word [wSolo] [] 0 (some 1) none 0 0 = some wSolo ∧
    wSolo.id = 1 := ⟨rfl, rfl⟩

end LangWidget
